import Mathlib

/-!
Verification of the battle-session concurrency controller and protocol
interpreter in `poke_env/player/player.py` (class `Player`).

The Python code is shallowly embedded below.  Strings are modelled as
`List Char` (`Str`), Python `str.startswith` / `str.endswith` / `in` as
prefix / suffix / infix tests on those lists, and Python dictionaries as
association lists.  Stateful methods become explicit state-passing
functions; an uncaught Python exception is modelled by `Option`
(`none` = the handler raises).  Cooperative `asyncio` interleaving is
modelled as a scheduler choosing which task executes its next atomic
segment, where segment boundaries are `await` points of the source.
-/

/-- Python strings, modelled as lists of characters. -/
abbrev Str := List Char

namespace PokeEnv

/-- Python `str.startswith(p)` for `s`. -/
def startsWith (s p : Str) : Bool := p.isPrefixOf s

/-- Python `str.endswith(p)` for `s`. -/
def endsWith (s p : Str) : Bool := p.isSuffixOf s

/-- Python `sub in s` (substring containment). -/
def containsSub (s sub : Str) : Bool := (s.tails).any (fun t => sub.isPrefixOf t)

/-- Python `s.split(sep)` for a non-empty separator `sep`: splits on every
non-overlapping occurrence of `sep`, scanning left to right.  Always returns
at least one (possibly empty) piece, like Python's `str.split`.  The `fuel`
argument makes the recursion structural (each step consumes at least one
character, so `fuel = s.length` always suffices and the `0` fallback is
unreachable). -/
def pySplitGo (sep : Str) : Nat → Str → List Str
  | _, [] => [[]]
  | 0, l => [l]
  | fuel + 1, c :: rest =>
    if sep.isPrefixOf (c :: rest) then
      [] :: pySplitGo sep fuel (List.drop (sep.length - 1) rest)
    else
      match pySplitGo sep fuel rest with
      | [] => [[c]]
      | p :: ps => (c :: p) :: ps

/-- Python `s.split(sep)`. -/
def pySplit (s sep : Str) : List Str :=
  if sep.isEmpty then [s] else pySplitGo sep s.length s

/-- Parse a decimal natural number, modelling Python `float(s)` restricted to
the integer-literal strings that actually occur in HP fractions; any other
string raises (`none`). -/
def parseNat (s : Str) : Option Nat :=
  if s ≠ [] ∧ s.all Char.isDigit then
    some (s.foldl (fun a c => 10 * a + (c.toNat - 48)) 0)
  else none

/-- Python `round` (round half to even) of the rational `n / d`, for `d ≠ 0`. -/
def roundHalfEven (n d : Nat) : Nat :=
  let q := n / d
  let r := n % d
  if 2 * r < d then q
  else if d < 2 * r then q + 1
  else if q % 2 = 0 then q else q + 1

/-- Decimal rendering of an integer, as Python's f-string interpolation. -/
def intToStr (i : Int) : Str := (toString i).data

/-- Decimal rendering of a natural number. -/
def natToStr (n : Nat) : Str := (toString n).data

/-- Association-list lookup, modelling Python `dict[k]` (`none` = `KeyError`). -/
def alistGet (d : List (Str × List Str)) (k : Str) : Option (List Str) :=
  match d.find? (fun e => e.1 = k) with
  | some e => some e.2
  | none => none

/-- Replace the binding of `k` by `v` (first occurrence), modelling
`dict[k] = v`. -/
def alistSet (d : List (Str × List Str)) (k : Str) (v : List Str) :
    List (Str × List Str) :=
  match d with
  | [] => [(k, v)]
  | e :: rest => if e.1 = k then (k, v) :: rest else e :: alistSet rest k v

/-- The pattern `try: d[k].append(v) except: d[k] = [v]` from the source:
append `v` to the entry of `k`, creating the entry if missing. -/
def hpAppend (d : List (Str × List Str)) (k : Str) (v : Str) :
    List (Str × List Str) :=
  match alistGet d k with
  | some l => alistSet d k (l ++ [v])
  | none => alistSet d k [v]

/-! ## Concurrency Gate (`_battle_count_queue` + battle registry)

`Player.__init__` creates `_battle_count_queue = asyncio.Queue(max_concurrent_battles)`.
`_create_battle` performs `await self._battle_count_queue.put(None)` before
registering a new battle (admission), and the `win`/`tie` branch of
`_handle_battle_message` performs `await self._battle_count_queue.get()`
(release).  An `asyncio.Queue` with `maxsize > 0` blocks `put` while
`qsize() == maxsize` and blocks `get` while empty; with `maxsize = 0` it is
unbounded.  `gateStep` gives the semantics of one completed operation:
an event whose blocking condition holds can simply not be scheduled, so a
valid run (`gateRun … = some _`) is exactly a sequence of operations that
all completed. -/

/-- State of the gate and registry: `admitted` is the number of `None`
markers in `_battle_count_queue`, `battles` the keys of `self._battles`,
`finished` the tags whose `win`/`tie` message has been processed. -/
structure GateState where
  admitted : Nat
  battles : List Str
  finished : List Str
  deriving DecidableEq, Repr

/-- One lifecycle event: `create tag` is a run of `_create_battle` for
`tag` (without a same-tag interleaving race, which `CreateRace` below
models separately); `finish tag` is the `win`/`tie` branch of
`_handle_battle_message` for `tag`. -/
inductive GEvent where
  | create (tag : Str)
  | finish (tag : Str)
  deriving DecidableEq, Repr

/-- Semantics of one event against capacity `cap = max_concurrent_battles`.
`create`: if the tag is registered, `_create_battle` returns it at once
(line 277) with no gate traffic; otherwise the `put` completes only when the
queue is not full (`cap = 0` or `admitted < cap`) and the battle is then
registered.  `finish`: the handler has looked the battle up, so the tag is
registered; the terminal message of a battle is processed once; the `get`
completes only on a non-empty queue. -/
def gateStep (cap : Nat) (s : GateState) : GEvent → Option GateState
  | .create t =>
    if t ∈ s.battles then some s
    else if cap = 0 ∨ s.admitted < cap then
      some ⟨s.admitted + 1, t :: s.battles, s.finished⟩
    else none
  | .finish t =>
    if t ∈ s.battles ∧ t ∉ s.finished ∧ 0 < s.admitted then
      some ⟨s.admitted - 1, s.battles, t :: s.finished⟩
    else none

/-- Run a sequence of completed gate events. -/
def gateRun (cap : Nat) : List GEvent → GateState → Option GateState
  | [], s => some s
  | e :: es, s =>
    match gateStep cap s e with
    | some s' => gateRun cap es s'
    | none => none

/-- The initial state: empty registry, empty queue. -/
def gateInit : GateState := ⟨0, [], []⟩

/-! ## Racing `_create_battle` calls for one tag (`CreateRace`)

Two concurrent executions of `_create_battle` (lines 273-310) for the same
unseen `battle_tag`.  Atomic segments are delimited by the `await` points of
the source:

* `atCheck`    — line 277 `if battle_tag in self._battles` (synchronous);
* `atPut`      — line 298 `await self._battle_count_queue.put(None)`
                 (completes only when the queue is not full);
* `atRecheck`  — lines 299-301: re-check, and on a hit
                 `await self._battle_count_queue.get()` and return the
                 registered battle;
* `atRegister` — line 302 `async with self._battle_start_condition`
                 (a suspension point: the lock can be held by e.g. `_ladder`
                 across a network await) followed by the atomic body of
                 lines 303-305, which assigns `self._battles[battle_tag]`.

Each task allocates its own `Battle` object (lines 280-296, synchronous);
object identity is the task id.  `done b via` records the returned object
`b` and whether the task returned from its own registration (`via = true`)
or by picking up the already-registered battle (`via = false`). -/

/-- Program counter of one `_create_battle` task. -/
inductive CreatePC where
  | atCheck
  | atPut
  | atRecheck
  | atRegister
  | done (ret : Bool) (viaRegister : Bool)
  deriving DecidableEq, Repr

/-- Shared state of the two racing tasks.  `reg` is
`self._battles.get(battle_tag)` (holding the allocating task's id),
`admitted` the `_battle_count_queue` size, `registrations` the number of
`self._battles[battle_tag] = battle` assignments executed so far. -/
structure RaceState where
  reg : Option Bool
  admitted : Nat
  registrations : Nat
  pc0 : CreatePC
  pc1 : CreatePC
  deriving DecidableEq, Repr

/-- Program counter of task `i`. -/
def RaceState.pc (s : RaceState) (i : Bool) : CreatePC :=
  if i then s.pc1 else s.pc0

/-- Replace the program counter of task `i`. -/
def RaceState.setPc (s : RaceState) (i : Bool) (pc : CreatePC) : RaceState :=
  if i then { s with pc1 := pc } else { s with pc0 := pc }

/-- One atomic segment of task `i`; `none` when `i` cannot run (it is done,
or it is blocked at a full-queue `put`). -/
def raceStep (cap : Nat) (s : RaceState) (i : Bool) : Option RaceState :=
  match s.pc i with
  | .atCheck =>
    match s.reg with
    | some b => some (s.setPc i (.done b false))
    | none => some (s.setPc i .atPut)
  | .atPut =>
    if cap = 0 ∨ s.admitted < cap then
      some { s.setPc i .atRecheck with admitted := s.admitted + 1 }
    else none
  | .atRecheck =>
    match s.reg with
    | some b =>
      if 0 < s.admitted then
        some { s.setPc i (.done b false) with admitted := s.admitted - 1 }
      else none
    | none => some (s.setPc i .atRegister)
  | .atRegister =>
    some { s.setPc i (.done i true) with
      reg := some i, registrations := s.registrations + 1 }
  | .done _ _ => none

/-- States visited after each scheduled step (the initial state excluded);
`none` when the schedule picks a task that cannot run. -/
def raceSteps (cap : Nat) : List Bool → RaceState → Option (List RaceState)
  | [], _ => some []
  | i :: is, s =>
    match raceStep cap s i with
    | some s' =>
      match raceSteps cap is s' with
      | some l => some (s' :: l)
      | none => none
    | none => none

/-- Final state of a completed schedule. -/
def raceRun (cap : Nat) (sched : List Bool) (s : RaceState) :
    Option RaceState :=
  (raceSteps cap sched s).map (fun l => l.getLastD s)

/-- Both tasks start at the initial check, nothing registered, empty queue. -/
def raceInit : RaceState := ⟨none, 0, 0, .atCheck, .atCheck⟩

/-- A state in which both tasks sit between their registry re-check and
their registration (both inside `async with`-acquisition of line 302). -/
def bothAtRegister (s : RaceState) : Prop :=
  s.pc0 = .atRegister ∧ s.pc1 = .atRegister

instance (s : RaceState) : Decidable (bothAtRegister s) := by
  unfold bothAtRegister; infer_instance

/-! ## Error-Recovery Policy (`error` branch of `_handle_battle_message`)

Lines 574-640 classify `split_message[2]` by an ordered `elif` chain of
`startswith` / `endswith` / `in` tests.  `ErrAction` records which action the
chain takes. -/

/-- Action taken on a server `error` message. -/
inductive ErrAction where
  /-- "too late to make a different move": retry without forced default,
  but only when `battle.trapped` is set (lines 578-582). -/
  | retryIfTrapped
  /-- "The active Pokémon is trapped" (either bracket): set `battle.trapped`
  and retry without forced default (lines 583-590). -/
  | markTrappedAndRetry
  /-- Retry with `maybe_default_order=True` (forced-default chance). -/
  | retryMaybeDefault
  /-- Set `battle.move_on_next_request`; no retry (lines 618-629). -/
  | setMoveOnNextRequest
  /-- `logger.critical("Unexpected error message: …")`; no retry (line 640). -/
  | logUnexpected
  deriving DecidableEq, Repr

/-- Prefix tested at line 579. -/
def errTooLate : Str :=
  "[Invalid choice] Sorry, too late to make a different move".data

/-- Prefix tested at line 584. -/
def errTrappedUnavail : Str :=
  "[Unavailable choice] Can't switch: The active Pokémon is trapped".data

/-- Prefix tested at line 587. -/
def errTrappedInvalid : Str :=
  "[Invalid choice] Can't switch: The active Pokémon is trapped".data

/-- Prefix tested at line 592. -/
def errSwitchActive : Str :=
  "[Invalid choice] Can't switch: You can't switch to an active Pokémon".data

/-- Prefix tested at line 597. -/
def errSwitchFainted : Str :=
  "[Invalid choice] Can't switch: You can't switch to a fainted Pokémon".data

/-- Prefix tested at line 602. -/
def errInvalidTarget : Str :=
  "[Invalid choice] Can't move: Invalid target for".data

/-- Prefix tested at line 606. -/
def errChooseTarget : Str :=
  "[Invalid choice] Can't move: You can't choose a target for".data

/-- Prefix tested at lines 610 and 636. -/
def errCantMove : Str := "[Invalid choice] Can't move: ".data

/-- Suffix tested at line 611. -/
def errNeedsTarget : Str := "needs a target".data

/-- Prefix tested at line 614. -/
def errYourPrefix : Str := "[Invalid choice] Can't move: Your".data

/-- Substring tested at line 615. -/
def errMoveMatching : Str := " doesn't have a move matching ".data

/-- Prefix tested at line 619. -/
def errIncomplete : Str := "[Invalid choice] Incomplete choice: ".data

/-- Prefix tested at line 623. -/
def errUnavailable : Str := "[Unavailable choice]".data

/-- Prefix tested at line 626. -/
def errInvalid : Str := "[Invalid choice]".data

/-- Suffix tested at lines 624 and 628. -/
def errIsDisabled : Str := "is disabled".data

/-- Prefix tested at line 631. -/
def errMoreChoices : Str :=
  "[Invalid choice] Can't move: You sent more choices than unfainted Pokémon.".data

/-- Suffix tested at line 637. -/
def errTerastallize : Str := "can't Terastallize.".data

/-- The ordered `elif` chain of lines 578-640 applied to the error text. -/
def classifyError (s : Str) : ErrAction :=
  if startsWith s errTooLate then .retryIfTrapped
  else if startsWith s errTrappedUnavail ∨ startsWith s errTrappedInvalid then
    .markTrappedAndRetry
  else if startsWith s errSwitchActive then .retryMaybeDefault
  else if startsWith s errSwitchFainted then .retryMaybeDefault
  else if startsWith s errInvalidTarget then .retryMaybeDefault
  else if startsWith s errChooseTarget then .retryMaybeDefault
  else if startsWith s errCantMove ∧ endsWith s errNeedsTarget then
    .retryMaybeDefault
  else if startsWith s errYourPrefix ∧ containsSub s errMoveMatching then
    .retryMaybeDefault
  else if startsWith s errIncomplete then .retryMaybeDefault
  else if startsWith s errUnavailable ∧ endsWith s errIsDisabled then
    .setMoveOnNextRequest
  else if startsWith s errInvalid ∧ endsWith s errIsDisabled then
    .setMoveOnNextRequest
  else if startsWith s errMoreChoices then .retryMaybeDefault
  else if startsWith s errCantMove ∧ endsWith s errTerastallize then
    .retryMaybeDefault
  else .logUnexpected

/-! ## Narration pass (`_handle_battle_message`, lines 342-550)

When a grouped update has more than 3 lines, the handler walks
`msg = split_messages[3:]`, breaking on any line of length exactly 1, and
appends a human-readable phrase per event to `battle.battle_msg_history`,
threading `battle.speed_list`, `battle.pokemon_hp_log_dict` and
`self.switch_set`.  An uncaught Python exception (IndexError on a missing
field outside a `try`, KeyError of the `-status` table) is modelled as
`none`; in that case the handler aborts and the model discards the
partially-updated state.  HP fractions are computed with exact rational
arithmetic in place of Python floats, which agrees on the integer-valued
`"cur/max"` HP strings the protocol uses. -/

/-- Python `s.replace(pat, rep)` for non-empty `pat` (all non-overlapping
occurrences, left to right); structurally recursive on a fuel that
`s.length` always covers. -/
def pyReplaceGo (pat rep : Str) : Nat → Str → Str
  | _, [] => []
  | 0, l => l
  | fuel + 1, c :: rest =>
    if pat.isPrefixOf (c :: rest) then
      rep ++ pyReplaceGo pat rep fuel (List.drop (pat.length - 1) rest)
    else
      c :: pyReplaceGo pat rep fuel rest

/-- Python `s.replace(pat, rep)`; the sources only call it with non-empty
patterns, for which `pyReplaceGo` is exact. -/
def pyReplace (s pat rep : Str) : Str :=
  if pat.isEmpty then s else pyReplaceGo pat rep s.length s

/-- Python `set.add`, on an insertion-ordered list model of a set. -/
def setAdd (s : List Str) (x : Str) : List Str := if x ∈ s then s else s ++ [x]

/-- Narration-relevant mutable state: `battle.speed_list`,
`battle.pokemon_hp_log_dict`, `battle.battle_msg_history`, and the
player-level `self.switch_set`. -/
structure NarrBattle where
  speedList : List Str
  hpLog : List (Str × List Str)
  msgHistory : Str
  switchSet : List Str
  deriving DecidableEq, Repr

/-- The previous HP string for actor `k`:
`try: …hp_log_dict[k][-1].split(" ")[0] except: "100/100"` (lines 441-444
and 469-472). -/
def prevHpStr (st : NarrBattle) (k : Str) : Str :=
  match alistGet st.hpLog k with
  | some l =>
    match l.getLast? with
    | some last => (pySplit last " ".data).headD []
    | none => "100/100".data
  | none => "100/100".data

/-- Integer HP percentage of an (already space-split) HP string:
`0 if s == "0" else round(float(a)/float(b) * 100)` for `s = a/b…`; `none`
models the uncaught exception on a malformed string (missing `/`,
non-numeric parts, or the `OverflowError` of `round` on division by zero). -/
def hpFracOfStr (s : Str) : Option Int :=
  if s = "0".data then some 0
  else
    match pySplit s "/".data with
    | a :: b :: _ => do
      let x ← parseNat a
      let y ← parseNat b
      if y = 0 then none
      else some (Int.ofNat (roundHalfEven (100 * x) y))
    | _ => none

/-- The event vocabulary of the narration dispatch. -/
inductive EvKind where
  | start | turn | switch | drag | faint | move | cant
  | sidestart | sideend | vstart | vend | fieldstart | fieldend
  | ability | supereffective | resisted | heal | damage
  | unboost | boost | fail | miss | weather | activate | immune | crit
  | status | other
  deriving DecidableEq, Repr

/-- Classify `msg[idx][1]` exactly as the `elif` chain of lines 350-544. -/
def evKindOf (ev : Str) : EvKind :=
  if ev = "start".data then .start
  else if ev = "turn".data then .turn
  else if ev = "switch".data then .switch
  else if ev = "drag".data then .drag
  else if ev = "faint".data then .faint
  else if ev = "move".data then .move
  else if ev = "cant".data then .cant
  else if ev = "-sidestart".data then .sidestart
  else if ev = "-sideend".data then .sideend
  else if ev = "-start".data then .vstart
  else if ev = "-end".data then .vend
  else if ev = "-fieldstart".data then .fieldstart
  else if ev = "-fieldend".data then .fieldend
  else if ev = "-ability".data then .ability
  else if ev = "-supereffective".data then .supereffective
  else if ev = "-resisted".data then .resisted
  else if ev = "-heal".data then .heal
  else if ev = "-damage".data then .damage
  else if ev = "-unboost".data then .unboost
  else if ev = "-boost".data then .boost
  else if ev = "-fail".data then .fail
  else if ev = "-miss".data then .miss
  else if ev = "-weather".data then .weather
  else if ev = "-activate".data then .activate
  else if ev = "-immune".data then .immune
  else if ev = "-crit".data then .crit
  else if ev = "-status".data then .status
  else .other

/-- The `-status` code table of line 543 (`KeyError` = `none`). -/
def statusWord (c : Str) : Option Str :=
  if c = "brn".data then some "burnt".data
  else if c = "frz".data then some "frozen".data
  else if c = "par".data then some "paralyzed".data
  else if c = "slp".data then some "sleeping".data
  else if c = "tox".data then some "toxic".data
  else if c = "psn".data then some "poisoned".data
  else none

/-- The `cant` cause table of lines 387-394 (unknown codes pass through). -/
def cantReason (c : Str) : Str :=
  if c = "frz".data then "frozen".data
  else if c = "par".data then "paralyzed".data
  else if c = "slp".data then "sleeping".data
  else c

/-- Append a (possibly empty) description to the event log: the
`if description: battle.battle_msg_history += description` of line 546. -/
def pushDesc (st : NarrBattle) (d : Str) : NarrBattle :=
  if d = [] then st else { st with msgHistory := st.msgHistory ++ d }

/-- One iteration of the narration loop body for a line already past the
length-1 break, dispatched on its event kind. -/
def stepEv (username : Str) (st : NarrBattle) (line : List Str) :
    EvKind → Option NarrBattle
  | .start =>
    some (pushDesc { st with speedList := [] } "Battle start:".data)
  | .turn => do
    let t ← line.get? 2
    let d0 : Str :=
      match st.speedList with
      | [a, b] =>
        " ".data ++ a ++ " outspeeded ".data ++ b ++ " in this turn.".data
      | _ => []
    let d := d0 ++ "[sep]Turn ".data ++ t ++ ":".data
    pure (pushDesc { st with speedList := [] } d)
  | .switch => do
    let k ← line.get? 2
    let v ← line.get? 4
    let d := pyReplace (pyReplace
      (" ".data ++ (pySplit k " ".data).headD [] ++ " sent out ".data ++
        (pySplit k ": ".data).getLastD [] ++ ".".data)
      "p2a:".data "Player2".data) "p1a:".data "Player1".data
    pure (pushDesc
      { st with switchSet := setAdd st.switchSet k,
                hpLog := hpAppend st.hpLog k v } d)
  | .drag => do
    let k ← line.get? 2
    let v ← line.get? 4
    let d := " ".data ++ k ++ "was dragged out.".data
    pure (pushDesc { st with hpLog := hpAppend st.hpLog k v } d)
  | .faint => do
    let k ← line.get? 2
    pure (pushDesc st (" ".data ++ k ++ " faint.".data))
  | .move => do
    let a ← line.get? 2
    let m ← line.get? 3
    let d := " ".data ++ a ++ " used ".data ++ m ++ ".".data
    pure (pushDesc { st with speedList := st.speedList ++ [a] } d)
  | .cant => do
    let a ← line.get? 2
    let c ← line.get? 3
    let d := " ".data ++ a ++ " cannot move because of ".data ++
      cantReason c ++ ".".data
    pure (pushDesc st d)
  | .sidestart => do
    let s2 ← line.get? 2
    let mv ← line.get? 3
    let target : Str :=
      if containsSub s2 username then "your team".data
      else "opponent's team".data
    let mv' := if startsWith mv "move: ".data then
        pyReplace mv "move: ".data [] else mv
    pure (pushDesc st
      (" ".data ++ mv' ++ " was set around ".data ++ target ++ ".".data))
  | .sideend => do
    let s2 ← line.get? 2
    let s3 ← line.get? 3
    let target : Str :=
      if containsSub s2 username then "your".data else "opponent".data
    pure (pushDesc st
      (" ".data ++ s3 ++ "was removed from ".data ++ target ++ " team".data))
  | .vstart => do
    let a ← line.get? 2
    let b ← line.get? 3
    if 4 < line.length then do
      let c ← line.get? 4
      if c ≠ [] then
        pure (pushDesc st (" ".data ++ a ++ " started ".data ++ b ++
          " due to ".data ++ c ++ ".".data))
      else
        pure (pushDesc st (" ".data ++ a ++ " started ".data ++ b ++ ".".data))
    else
      pure (pushDesc st (" ".data ++ a ++ " started ".data ++ b ++ ".".data))
  | .vend => do
    let a ← line.get? 2
    let b ← line.get? 3
    pure (pushDesc st (" ".data ++ a ++ " stop ".data ++ b ++ ".".data))
  | .fieldstart => do
    let a ← line.get? 2
    pure (pushDesc st
      (" Field start: ".data ++ a ++ " ran across the battlefield.".data))
  | .fieldend => do
    let a ← line.get? 2
    pure (pushDesc st
      (" Field end: ".data ++ a ++ " disappeared from the battlefield.".data))
  | .ability => do
    let a ← line.get? 2
    let b ← line.get? 3
    pure (pushDesc st (" ".data ++ a ++ "'s ability: ".data ++ b ++ ".".data))
  | .supereffective => do
    let a ← line.get? 2
    pure (pushDesc st
      (" The move was super effective to ".data ++ a ++ ".".data))
  | .resisted => do
    let a ← line.get? 2
    pure (pushDesc st (" The move was ineffective to ".data ++ a ++ ".".data))
  | .heal => do
    let k ← line.get? 2
    let v ← line.get? 3
    let pf ← hpFracOfStr (prevHpStr st k)
    let cf ← hpFracOfStr ((pySplit v " ".data).headD [])
    let delta := cf - pf
    let d ←
      if 4 < line.length then do
        let e ← line.get? 4
        pure (" ".data ++ k ++ " restored ".data ++ intToStr delta ++
          "% of HP (".data ++ intToStr cf ++ "% left) ".data ++ e ++ ".".data)
      else
        pure (" ".data ++ k ++ " restored ".data ++ intToStr delta ++
          "% of HP (".data ++ intToStr cf ++ "% left).".data)
    pure (pushDesc { st with hpLog := hpAppend st.hpLog k v } d)
  | .damage => do
    let k ← line.get? 2
    let v ← line.get? 3
    let pf ← hpFracOfStr (prevHpStr st k)
    let st' := { st with hpLog := hpAppend st.hpLog k v }
    let cf ← hpFracOfStr ((pySplit v " ".data).headD [])
    let delta := pf - cf
    if cf = 100 then
      pure st'
    else
      let d ←
        if containsSub k "oroark".data then
          if 4 < line.length then do
            let e ← line.get? 4
            pure (" ".data ++ k ++ "'s HP was damaged to ".data ++
              intToStr cf ++ "% ".data ++ e ++ ".".data)
          else
            pure (" It damaged ".data ++ k ++ "'s HP to ".data ++
              intToStr cf ++ "%.".data)
        else
          if 4 < line.length then do
            let e ← line.get? 4
            pure (" ".data ++ k ++ "'s HP was damaged by ".data ++
              intToStr delta ++ "% ".data ++ e ++ " (".data ++
              intToStr cf ++ "% left).".data)
          else
            pure (" It damaged ".data ++ k ++ "'s HP by ".data ++
              intToStr delta ++ "% (".data ++ intToStr cf ++ "% left).".data)
      pure (pushDesc st' d)
  | .unboost => do
    let a ← line.get? 2
    let b ← line.get? 3
    let c ← line.get? 4
    pure (pushDesc st (" It decreased ".data ++ a ++ "'s ".data ++ b ++
      " ".data ++ c ++ " level.".data))
  | .boost => do
    let a ← line.get? 2
    let b ← line.get? 3
    let c ← line.get? 4
    pure (pushDesc st (" It boosted ".data ++ a ++ "'s ".data ++ b ++
      " ".data ++ c ++ " level.".data))
  | .fail => pure (pushDesc st " But it failed.".data)
  | .miss => pure (pushDesc st " It missed.".data)
  | .weather => pure st
  | .activate => do
    let a ← line.get? 2
    let b ← line.get? 3
    pure (pushDesc st (" ".data ++ a ++ " activated ".data ++ b ++ ".".data))
  | .immune => do
    let a ← line.get? 2
    pure (pushDesc st (" but had zero effect to ".data ++ a ++ ".".data))
  | .crit => pure (pushDesc st " A critical hit.".data)
  | .status => do
    let a ← line.get? 2
    let c ← line.get? 3
    let w ← statusWord c
    pure (pushDesc st (" It caused ".data ++ a ++ " ".data ++ w ++ ".".data))
  | .other => pure st

/-- One iteration of the narration loop body (dispatch on `msg[idx][1]`;
a missing field 1 is an uncaught IndexError). -/
def stepLine (username : Str) (st : NarrBattle) (line : List Str) :
    Option NarrBattle := do
  let ev ← line.get? 1
  stepEv username st line (evKindOf ev)

/-- The narration loop of lines 344-550 over `msg = split_messages[3:]`:
break on a line of length exactly 1, otherwise run the body. -/
def narrate (username : Str) : List (List Str) → NarrBattle → Option NarrBattle
  | [], st => some st
  | l :: rest, st =>
    if l.length = 1 then some st
    else
      match stepLine username st l with
      | some st' => narrate username rest st'
      | none => none

/-- The narration pass of a grouped update: lines 342-343 run the loop on
`split_messages[3:]` only when more than 3 lines are present. -/
def narratePass (username : Str) (msgs : List (List Str)) (st : NarrBattle) :
    Option NarrBattle :=
  if 3 < msgs.length then narrate username (msgs.drop 3) st else some st

/-! ## Decision Cycle Driver (`_handle_battle_request`, lines 652-683)

The handler mutates nothing itself; its observable effect is the single
`await self.ps_client.send_message(message, battle.battle_tag)` of line 683,
or nothing at all on the early `return` of line 668.  The result is
`some (message, room)` for a sent command and `none` for the no-op.
`randHit` models `random.random() < self.DEFAULT_CHOICE_CHANCE`;
`chooseMoveResult` is the resolved value of `self.choose_move(battle)`
(after awaiting, `none` for Python `None`), carrying the `.message` wire
text of the returned order; `teampreviewMsg` the result of
`self.teampreview(battle)`. -/

/-- Modelled from the spec: the wire text of `DefaultBattleOrder().message`
(class `DefaultBattleOrder` lives in `poke_env/player/battle_order.py`,
which is not part of this repository snapshot; the spec calls it "the
server's first-legal-option fallback" sentinel).  The claims below depend
only on this being one fixed command. -/
def defaultOrderMessage : Str := "/choose default".data

/-- Request-handler view of the battle: `battle.in_team_preview` and
`battle.battle_tag`. -/
structure ReqBattle where
  inTeamPreview : Bool
  battleTag : Str
  deriving DecidableEq, Repr

/-- `_handle_battle_request` (lines 652-683). -/
def handleBattleRequest (b : ReqBattle)
    (fromTeampreviewRequest maybeDefaultOrder randHit : Bool)
    (chooseMoveResult : Option Str) (teampreviewMsg : Str) :
    Option (Str × Str) :=
  if maybeDefaultOrder ∧ randHit then
    some (defaultOrderMessage, b.battleTag)
  else if b.inTeamPreview then
    if ¬fromTeampreviewRequest then none
    else some (teampreviewMsg, b.battleTag)
  else
    match chooseMoveResult with
    | none => some (defaultOrderMessage, b.battleTag)
    | some m => some (m, b.battleTag)

/-! ## `reset_battles` (lines 1116-1123)

The loop raises `EnvironmentError` at the first unfinished battle — before
the `self._battles = {}` assignment, so the registry is untouched — and
clears the registry only after scanning every battle.  The registry is
modelled as its list of `(tag, finished)` pairs; the result is the registry
after the call together with whether the call raised. -/

/-- The scan loop of `reset_battles`; `orig` is the untouched registry the
raising path leaves behind. -/
def resetBattlesGo (orig : List (Str × Bool)) :
    List (Str × Bool) → List (Str × Bool) × Bool
  | [] => ([], false)
  | b :: rest => if b.2 then resetBattlesGo orig rest else (orig, true)

/-- `Player.reset_battles`: `(registry after, raised)`. -/
def resetBattles (battles : List (Str × Bool)) : List (Str × Bool) × Bool :=
  resetBattlesGo battles battles

/-! ## Theorems -/

/-- Helper: the scan loop raises at the first unfinished battle, returning
the untouched original registry. -/
lemma resetBattlesGo_raises (orig : List (Str × Bool)) :
    ∀ bs : List (Str × Bool), (∃ b ∈ bs, b.2 = false) →
      resetBattlesGo orig bs = (orig, true) := by
  intro bs
  induction bs with
  | nil => rintro ⟨b, hb, _⟩; exact absurd hb (List.not_mem_nil b)
  | cons b rest ih =>
    rintro ⟨c, hc, hcf⟩
    rcases List.mem_cons.mp hc with rfl | hcr
    · simp [resetBattlesGo, hcf]
    · by_cases hb : b.2
      · simpa [resetBattlesGo, hb] using ih ⟨c, hcr, hcf⟩
      · simp [resetBattlesGo, hb]

/-- Helper: the scan loop clears the registry when every battle is
finished. -/
lemma resetBattlesGo_clears (orig : List (Str × Bool)) :
    ∀ bs : List (Str × Bool), (∀ b ∈ bs, b.2 = true) →
      resetBattlesGo orig bs = ([], false) := by
  intro bs
  induction bs with
  | nil => intro _; rfl
  | cons b rest ih =>
    intro h
    have hb := h b (List.mem_cons_self b rest)
    simpa [resetBattlesGo, hb] using ih (fun c hc => h c (List.mem_cons_of_mem b hc))

/-- C5: `reset_battles` raises without mutating the registry whenever some
registered battle is unfinished, and clears the registry exactly when every
registered battle is finished. -/
theorem reset_battles_spec (bs : List (Str × Bool)) :
    ((∃ b ∈ bs, b.2 = false) → resetBattles bs = (bs, true)) ∧
    ((∀ b ∈ bs, b.2 = true) → resetBattles bs = ([], false)) :=
  ⟨fun h => resetBattlesGo_raises bs bs h,
   fun h => resetBattlesGo_clears bs bs h⟩

/-- Witness for C5: a registry with an unfinished battle is returned
untouched with the error flag, and an all-finished registry is cleared. -/
theorem reset_battles_spec_witness :
    resetBattles [("a".data, true), ("b".data, false)] =
      ([("a".data, true), ("b".data, false)], true) ∧
    resetBattles [("a".data, true)] = ([], false) :=
  ⟨(reset_battles_spec [("a".data, true), ("b".data, false)]).1
      ⟨("b".data, false), by decide, rfl⟩,
   (reset_battles_spec [("a".data, true)]).2 (by decide)⟩

/-- C7 counterexample: with the session in team preview and the call not
originating from a teampreview prompt, the handler is nevertheless not a
no-op when it was invoked from error recovery (`maybe_default_order=True`)
and the forced-default draw hits: it sends the default command
(lines 664-665 run before the team-preview guard of lines 666-668). -/
theorem teampreview_noop_counterexample :
    handleBattleRequest ⟨true, "battle-x-1".data⟩ false true true none [] =
      some (defaultOrderMessage, "battle-x-1".data) ∧
    handleBattleRequest ⟨true, "battle-x-1".data⟩ false true true none [] ≠
      none := by
  constructor
  · rfl
  · intro h
    simp [handleBattleRequest] at h

/-- C7 (amended): whenever the forced-default path is not taken (the call
has `maybe_default_order` unset, or the random draw misses), a call with
the session in team preview that did not originate from a teampreview
prompt is a no-op: no command is sent (and the handler mutates no session
state — the function reads the battle only). -/
theorem teampreview_noop (b : ReqBattle)
    (maybeDefaultOrder randHit : Bool) (cm : Option Str) (tp : Str)
    (hnd : ¬(maybeDefaultOrder = true ∧ randHit = true))
    (hpre : b.inTeamPreview = true) :
    handleBattleRequest b false maybeDefaultOrder randHit cm tp = none := by
  simp [handleBattleRequest, hpre, hnd]

/-- Witness for C7 (amended): concrete no-op call. -/
theorem teampreview_noop_witness :
    handleBattleRequest ⟨true, "battle-x-1".data⟩ false false true
      (some "/choose move 1".data) [] = none :=
  teampreview_noop ⟨true, "battle-x-1".data⟩ false true
    (some "/choose move 1".data) [] (by simp) rfl

/-- C8: in the non-teampreview decision cycle outside the forced-default
path, a `None` result of the move-decision callback is substituted with the
default command (lines 678-679); and on every path the handler either
no-ops or sends exactly one command tagged with the battle's identifier
(line 683). -/
theorem decision_default_substitution :
    (∀ (b : ReqBattle) (ftp maybeDefaultOrder randHit : Bool) (tp : Str),
      ¬(maybeDefaultOrder = true ∧ randHit = true) →
      b.inTeamPreview = false →
      handleBattleRequest b ftp maybeDefaultOrder randHit none tp =
        some (defaultOrderMessage, b.battleTag)) ∧
    (∀ (b : ReqBattle) (ftp maybeDefaultOrder randHit : Bool)
      (cm : Option Str) (tp : Str),
      handleBattleRequest b ftp maybeDefaultOrder randHit cm tp = none ∨
      ∃ m, handleBattleRequest b ftp maybeDefaultOrder randHit cm tp =
        some (m, b.battleTag)) := by
  constructor
  · intro b ftp mdef rhit tp hnd hpre
    simp only [handleBattleRequest, hpre]
    rw [if_neg (by simpa using hnd)]
    simp
  · intro b ftp mdef rhit cm tp
    unfold handleBattleRequest
    split
    · exact Or.inr ⟨_, rfl⟩
    · split
      · split
        · exact Or.inl rfl
        · exact Or.inr ⟨_, rfl⟩
      · cases cm
        · exact Or.inr ⟨_, rfl⟩
        · exact Or.inr ⟨_, rfl⟩

/-- Witness for C8: a concrete `None` callback result is replaced by the
default command, tagged with the battle identifier. -/
theorem decision_default_substitution_witness :
    handleBattleRequest ⟨false, "battle-x-2".data⟩ false false false none [] =
      some (defaultOrderMessage, "battle-x-2".data) ∧
    (handleBattleRequest ⟨false, "battle-x-2".data⟩ false false false
        (some "/choose move 1".data) [] = none ∨
      ∃ m, handleBattleRequest ⟨false, "battle-x-2".data⟩ false false false
        (some "/choose move 1".data) [] = some (m, "battle-x-2".data)) :=
  ⟨decision_default_substitution.1 ⟨false, "battle-x-2".data⟩ false false
      false [] (by simp) rfl,
   decision_default_substitution.2 ⟨false, "battle-x-2".data⟩ false false
      false (some "/choose move 1".data) []⟩

/-- C9 counterexample: a zero-field event line does not terminate the
narration pass cleanly — the loop guard of line 346 tests
`len(msg[idx]) == 1` only, so a zero-field line falls through to the
`msg[idx][1]` dispatch and raises an out-of-bounds lookup, aborting the
handler (`none`). -/
theorem narration_short_line_counterexample :
    narrate "me".data [[]] ⟨[], [], [], []⟩ = none ∧
    narrate "me".data [["room".data, "turn".data]] ⟨[], [], [], []⟩ = none := by
  constructor <;> rfl

/-- C9 (amended): an event line with exactly one field terminates the
narration pass early without error, returning the state accumulated so far
and ignoring every remaining line; a zero-field line, or a line missing a
field its event type reads (such as a two-field `turn` line), instead
aborts the handler with an out-of-bounds lookup. -/
theorem narration_early_termination (username : Str) (st : NarrBattle)
    (l : List Str) (rest : List (List Str)) (h : l.length = 1) :
    narrate username (l :: rest) st = some st := by
  unfold narrate
  rw [if_pos h]

/-- Witness for C9 (amended): a concrete one-field line stops the pass at
once, even with malformed lines behind it. -/
theorem narration_early_termination_witness :
    narrate "me".data [["upkeep".data], []] ⟨[], [], [], []⟩ =
      some ⟨[], [], [], []⟩ :=
  narration_early_termination "me".data ⟨[], [], [], []⟩ ["upkeep".data] [[]]
    rfl

/-- Helper for C1: one gate event preserves the capacity bound and the
admitted/finished/registered accounting. -/
lemma gateStep_inv {cap : Nat} {s s' : GateState} {e : GEvent}
    (h : gateStep cap s e = some s')
    (hcap : 0 < cap → s.admitted ≤ cap)
    (hacc : s.admitted + s.finished.length = s.battles.length) :
    (0 < cap → s'.admitted ≤ cap) ∧
      s'.admitted + s'.finished.length = s'.battles.length := by
  cases e with
  | create t =>
    simp only [gateStep] at h
    by_cases hmem : t ∈ s.battles
    · rw [if_pos hmem] at h
      cases h
      exact ⟨hcap, hacc⟩
    · rw [if_neg hmem] at h
      by_cases hen : cap = 0 ∨ s.admitted < cap
      · rw [if_pos hen] at h
        cases h
        constructor
        · intro hc
          show s.admitted + 1 ≤ cap
          rcases hen with h0 | hlt
          · omega
          · omega
        · show s.admitted + 1 + s.finished.length = (t :: s.battles).length
          simp only [List.length_cons]
          omega
      · rw [if_neg hen] at h
        cases h
  | finish t =>
    simp only [gateStep] at h
    by_cases hg : t ∈ s.battles ∧ t ∉ s.finished ∧ 0 < s.admitted
    · rw [if_pos hg] at h
      cases h
      constructor
      · intro hc
        have := hcap hc
        show s.admitted - 1 ≤ cap
        omega
      · show s.admitted - 1 + (t :: s.finished).length = s.battles.length
        simp only [List.length_cons]
        have h3 := hg.2.2
        omega
    · rw [if_neg hg] at h
      cases h

/-- Helper for C1: the invariant holds along any completed run. -/
lemma gateRun_inv {cap : Nat} :
    ∀ (evs : List GEvent) (s s' : GateState),
      gateRun cap evs s = some s' →
      (0 < cap → s.admitted ≤ cap) →
      s.admitted + s.finished.length = s.battles.length →
      (0 < cap → s'.admitted ≤ cap) ∧
        s'.admitted + s'.finished.length = s'.battles.length := by
  intro evs
  induction evs with
  | nil =>
    intro s s' h hcap hacc
    cases h
    exact ⟨hcap, hacc⟩
  | cons e es ih =>
    intro s s' h hcap hacc
    unfold gateRun at h
    cases hstep : gateStep cap s e with
    | none => rw [hstep] at h; cases h
    | some s1 =>
      rw [hstep] at h
      obtain ⟨h1, h2⟩ := gateStep_inv hstep hcap hacc
      exact ih s1 s' h h1 h2

/-- C1: for every completed sequence of admissions (`_create_battle`
puts) and releases (`win`/`tie` gets) starting from the initial state, when
`max_concurrent_battles > 0` the number of battles admitted but not yet
finished never exceeds that capacity; and since a tag is admitted only at
its first creation and released only at its (single) terminal message, the
admitted count always equals registered battles minus finished battles. -/
theorem gate_capacity_invariant (cap : Nat) (evs : List GEvent)
    (s : GateState) (hcap : 0 < cap)
    (h : gateRun cap evs gateInit = some s) :
    s.admitted ≤ cap ∧
      s.admitted + s.finished.length = s.battles.length := by
  obtain ⟨h1, h2⟩ :=
    gateRun_inv evs gateInit s h (fun _ => Nat.zero_le cap) rfl
  exact ⟨h1 hcap, h2⟩

/-- Witness for C1: capacity 1, two sessions created with a release in
between — the run completes and the final state satisfies the bound. -/
theorem gate_capacity_invariant_witness :
    GateState.admitted ⟨1, ["b".data, "a".data], ["a".data]⟩ ≤ 1 ∧
      GateState.admitted ⟨1, ["b".data, "a".data], ["a".data]⟩ +
        (GateState.finished ⟨1, ["b".data, "a".data], ["a".data]⟩).length =
        (GateState.battles ⟨1, ["b".data, "a".data], ["a".data]⟩).length :=
  gate_capacity_invariant 1
    [.create "a".data, .finish "a".data, .create "b".data]
    ⟨1, ["b".data, "a".data], ["a".data]⟩ (by decide) (by decide)

/-- Helper: the narration loop body binds `msg[idx][1]` and dispatches on
its event kind. -/
lemma stepLine_ev (u : Str) (st : NarrBattle) (line : List Str) (ev : Str)
    (h : line.get? 1 = some ev) :
    stepLine u st line = stepEv u st line (evKindOf ev) := by
  unfold stepLine
  rw [h]
  rfl

/-- Helper: appending a non-empty description extends the event log. -/
lemma pushDesc_append (st : NarrBattle) (d : Str) (hd : d ≠ []) :
    pushDesc st d = { st with msgHistory := st.msgHistory ++ d } := by
  simp [pushDesc, hd]

/-- Helper: the description push never touches the speed list. -/
lemma pushDesc_speedList (st : NarrBattle) (d : Str) :
    (pushDesc st d).speedList = st.speedList := by
  unfold pushDesc
  split <;> rfl

/-- Helper: the description push never touches the HP log. -/
lemma pushDesc_hpLog (st : NarrBattle) (d : Str) :
    (pushDesc st d).hpLog = st.hpLog := by
  unfold pushDesc
  split <;> rfl

/-- C6 counterexample: on a `turn` line with two accumulated actors the
emitted phrase says "outspeeded" (line 356), not "outsped" — the claimed
phrase "<first> outsped <second> in this turn" does not occur in the
produced log. -/
theorem turn_narration_counterexample :
    stepLine "me".data ⟨["A".data, "B".data], [], [], []⟩
        ["room".data, "turn".data, "3".data] =
      some ⟨[], [], " A outspeeded B in this turn.[sep]Turn 3:".data, []⟩ ∧
    containsSub " A outspeeded B in this turn.[sep]Turn 3:".data
      "A outsped B in this turn".data = false := by
  constructor
  · rfl
  · decide

/-- C6 (amended): on a `turn` event line, if exactly two actors have
accumulated in the pending speed order, the phrase
"<first> outspeeded <second> in this turn." is appended before the new
turn header; and in every case the pending speed order is reset to
empty. -/
theorem turn_narration (u : Str) (st : NarrBattle) (line : List Str)
    (t : Str) (h1 : line.get? 1 = some "turn".data)
    (h2 : line.get? 2 = some t) :
    (∀ a b, st.speedList = [a, b] →
      stepLine u st line = some { st with
        speedList := [],
        msgHistory := st.msgHistory ++
          (" ".data ++ a ++ " outspeeded ".data ++ b ++
            " in this turn.".data) ++
          ("[sep]Turn ".data ++ t ++ ":".data) }) ∧
    (∀ st', stepLine u st line = some st' → st'.speedList = []) := by
  have hk : evKindOf "turn".data = EvKind.turn := by decide
  constructor
  · intro a b hsl
    rw [stepLine_ev u st line _ h1, hk]
    simp only [stepEv, h2, hsl]
    show some (pushDesc { st with speedList := [] } _) = _
    rw [pushDesc_append]
    · simp [List.append_assoc]
    · simp
  · intro st' hst
    rw [stepLine_ev u st line _ h1, hk] at hst
    simp only [stepEv, h2, Option.bind_eq_bind, Option.some_bind,
      Option.pure_def, Option.some.injEq] at hst
    rw [← hst, pushDesc_speedList]

/-- Witness for C6 (amended): a concrete two-actor turn line. -/
theorem turn_narration_witness :
    stepLine "me".data ⟨["A".data, "B".data], [], [], []⟩
        ["room".data, "turn".data, "3".data] =
      some { (⟨["A".data, "B".data], [], [], []⟩ : NarrBattle) with
        speedList := [],
        msgHistory := ([] : Str) ++
          (" ".data ++ "A".data ++ " outspeeded ".data ++ "B".data ++
            " in this turn.".data) ++
          ("[sep]Turn ".data ++ "3".data ++ ":".data) } :=
  (turn_narration "me".data ⟨["A".data, "B".data], [], [], []⟩
      ["room".data, "turn".data, "3".data] "3".data rfl rfl).1
    "A".data "B".data rfl

/-- C10: a `-status` line whose status code is outside the
brn/frz/par/slp/tox/psn table raises an unhandled `KeyError` (line 544),
aborting the message handler; a `cant` line with a cause code outside
frz/par/slp passes the code through verbatim into the narration phrase
(lines 386-396). -/
theorem status_unknown_code_behavior :
    (∀ (u : Str) (st : NarrBattle) (line : List Str) (a c : Str),
      line.get? 1 = some "-status".data → line.get? 2 = some a →
      line.get? 3 = some c →
      c ≠ "brn".data → c ≠ "frz".data → c ≠ "par".data →
      c ≠ "slp".data → c ≠ "tox".data → c ≠ "psn".data →
      stepLine u st line = none) ∧
    (∀ (u : Str) (st : NarrBattle) (line : List Str) (a c : Str),
      line.get? 1 = some "cant".data → line.get? 2 = some a →
      line.get? 3 = some c →
      c ≠ "frz".data → c ≠ "par".data → c ≠ "slp".data →
      stepLine u st line = some { st with
        msgHistory := st.msgHistory ++
          (" ".data ++ a ++ " cannot move because of ".data ++ c ++
            ".".data) }) := by
  constructor
  · intro u st line a c h1 h2 h3 hbrn hfrz hpar hslp htox hpsn
    rw [stepLine_ev u st line _ h1,
      (by decide : evKindOf "-status".data = EvKind.status)]
    simp only [stepEv, h2, h3, Option.bind_eq_bind, Option.some_bind]
    have hw : statusWord c = none := by
      simp [statusWord, hbrn, hfrz, hpar, hslp, htox, hpsn]
    rw [hw]
    rfl
  · intro u st line a c h1 h2 h3 hfrz hpar hslp
    rw [stepLine_ev u st line _ h1,
      (by decide : evKindOf "cant".data = EvKind.cant)]
    simp only [stepEv, h2, h3, Option.bind_eq_bind, Option.some_bind,
      Option.pure_def]
    have hr : cantReason c = c := by
      simp [cantReason, hfrz, hpar, hslp]
    rw [hr, pushDesc_append _ _ (by simp)]
    try simp [List.append_assoc]

/-- Witness for C10: an unknown `-status` code aborts the handler, while an
unknown `cant` cause is narrated verbatim. -/
theorem status_unknown_code_behavior_witness :
    stepLine "me".data ⟨[], [], [], []⟩
      ["room".data, "-status".data, "p1a: X".data, "confusion".data] = none ∧
    stepLine "me".data ⟨[], [], [], []⟩
      ["room".data, "cant".data, "p1a: X".data, "recharge".data] =
      some { (⟨[], [], [], []⟩ : NarrBattle) with
        msgHistory := ([] : Str) ++
          (" ".data ++ "p1a: X".data ++ " cannot move because of ".data ++
            "recharge".data ++ ".".data) } :=
  ⟨status_unknown_code_behavior.1 "me".data ⟨[], [], [], []⟩
      ["room".data, "-status".data, "p1a: X".data, "confusion".data]
      "p1a: X".data "confusion".data rfl rfl rfl (by decide) (by decide)
      (by decide) (by decide) (by decide) (by decide),
   status_unknown_code_behavior.2 "me".data ⟨[], [], [], []⟩
      ["room".data, "cant".data, "p1a: X".data, "recharge".data]
      "p1a: X".data "recharge".data rfl rfl rfl (by decide) (by decide)
      (by decide)⟩

/-- Helper: substring containment is preserved by prepending. -/
lemma containsSub_append_right (x t sub : Str)
    (h : containsSub t sub = true) : containsSub (x ++ t) sub = true := by
  unfold containsSub at h ⊢
  simp only [List.any_eq_true, List.mem_tails] at h ⊢
  obtain ⟨u, hu, hp⟩ := h
  exact ⟨u, hu.trans (List.suffix_append x t), hp⟩

/-- Helper: substring containment is preserved by appending. -/
lemma containsSub_append_left (t x sub : Str)
    (h : containsSub t sub = true) : containsSub (t ++ x) sub = true := by
  unfold containsSub at h ⊢
  simp only [List.any_eq_true, List.mem_tails,
    List.isPrefixOf_iff_prefix] at h ⊢
  obtain ⟨u, hu, hp⟩ := h
  refine ⟨u ++ x, ?_, ?_⟩
  · obtain ⟨v, rfl⟩ := hu
    exact ⟨v, by simp⟩
  · exact hp.trans (List.prefix_append u x)

/-- C4 counterexample: a `-damage` line dropping an actor from the default
100/100 to 50/100 does not always produce a phrase containing "left": for
an actor name containing "oroark" the special-cased narration of
lines 496-500 says "... HP to 50%." with no "left". -/
theorem damage_narration_counterexample :
    stepLine "me".data ⟨[], [], [], []⟩
        ["room".data, "-damage".data, "p1a: Zoroark".data, "50/100".data] =
      some ⟨[], [("p1a: Zoroark".data, ["50/100".data])],
        " It damaged p1a: Zoroark's HP to 50%.".data, []⟩ ∧
    containsSub " It damaged p1a: Zoroark's HP to 50%.".data
      "left".data = false := by
  constructor
  · rfl
  · decide

/-- C4 (amended): in the `-damage` branch (lines 468-505): a damage event
whose new HP rounds to exactly 100% appends no narration line yet still
appends the new HP string to the actor's history; a drop from 100/100 to
50/100 on a four-field line appends a phrase containing "50" and "left"
provided the actor's name does not contain the special-cased fragment
"oroark" (whose narration instead reads "HP … to 50%." without "left");
and the previous HP fraction defaults to "100/100" when the actor has no
recorded history. -/
theorem damage_narration :
    (∀ (u : Str) (st : NarrBattle) (line : List Str) (k v : Str) (pf : Int),
      line.get? 1 = some "-damage".data → line.get? 2 = some k →
      line.get? 3 = some v →
      hpFracOfStr (prevHpStr st k) = some pf →
      hpFracOfStr ((pySplit v " ".data).headD []) = some 100 →
      stepLine u st line = some { st with hpLog := hpAppend st.hpLog k v }) ∧
    (∀ (u : Str) (st : NarrBattle) (r k : Str),
      prevHpStr st k = "100/100".data →
      containsSub k "oroark".data = false →
      ∃ (st' : NarrBattle) (d : Str),
        stepLine u st [r, "-damage".data, k, "50/100".data] = some st' ∧
        st'.msgHistory = st.msgHistory ++ d ∧
        st'.hpLog = hpAppend st.hpLog k "50/100".data ∧
        containsSub d "50".data = true ∧
        containsSub d "left".data = true) ∧
    (∀ (st : NarrBattle) (k : Str), alistGet st.hpLog k = none →
      prevHpStr st k = "100/100".data) := by
  refine ⟨?_, ?_, ?_⟩
  · intro u st line k v pf h1 h2 h3 hpf hcf
    rw [stepLine_ev u st line _ h1,
      (by decide : evKindOf "-damage".data = EvKind.damage)]
    simp only [stepEv, h2, h3, Option.bind_eq_bind, Option.some_bind, hpf,
      hcf, if_pos rfl]
    rfl
  · intro u st r k hprev hzoro
    have h1 : ([r, "-damage".data, k, "50/100".data] : List Str).get? 1 =
        some "-damage".data := rfl
    rw [stepLine_ev u st _ _ h1,
      (by decide : evKindOf "-damage".data = EvKind.damage)]
    simp only [stepEv, Option.bind_eq_bind, Option.some_bind, List.get?,
      hprev]
    rw [(by decide : hpFracOfStr "100/100".data = some (100 : Int))]
    simp only [Option.some_bind]
    rw [(by decide :
      hpFracOfStr ((pySplit "50/100".data " ".data).headD []) =
        some (50 : Int))]
    simp only [Option.some_bind]
    rw [if_neg (by decide : ¬((50 : Int) = 100)), hzoro]
    rw [if_neg (show ¬(4 < ([r, "-damage".data, k, "50/100".data] :
      List Str).length) by simp)]
    simp only [Bool.false_eq_true, if_false, Option.some_bind,
      Option.pure_def]
    refine ⟨_,
      " It damaged ".data ++ k ++ "'s HP by ".data ++
        intToStr ((100 : Int) - 50) ++ "% (".data ++ intToStr (50 : Int) ++
        "% left).".data, rfl, ?_, ?_, ?_, ?_⟩
    · rw [pushDesc_append _ _ (by simp)]
    · rw [pushDesc_hpLog]
    · apply containsSub_append_left
      apply containsSub_append_right
      decide
    · apply containsSub_append_right
      decide
  · intro st k h
    unfold prevHpStr
    rw [h]

/-- Witness for C4 (amended): concrete suppressed-at-100% update, concrete
50% drop with "50" and "left" in the phrase, and the concrete default. -/
theorem damage_narration_witness :
    stepLine "me".data ⟨[], [], [], []⟩
        ["room".data, "-damage".data, "p1a: Q".data, "100/100".data] =
      some { (⟨[], [], [], []⟩ : NarrBattle) with
        hpLog := hpAppend [] "p1a: Q".data "100/100".data } ∧
    (∃ (st' : NarrBattle) (d : Str),
      stepLine "me".data ⟨[], [], [], []⟩
          ["room".data, "-damage".data, "p1a: Garchomp".data,
            "50/100".data] = some st' ∧
      st'.msgHistory = ([] : Str) ++ d ∧
      st'.hpLog = hpAppend [] "p1a: Garchomp".data "50/100".data ∧
      containsSub d "50".data = true ∧
      containsSub d "left".data = true) ∧
    prevHpStr ⟨[], [], [], []⟩ "p1a: Q".data = "100/100".data :=
  ⟨damage_narration.1 "me".data ⟨[], [], [], []⟩
      ["room".data, "-damage".data, "p1a: Q".data, "100/100".data]
      "p1a: Q".data "100/100".data 100 rfl rfl rfl (by decide) (by decide),
   damage_narration.2.1 "me".data ⟨[], [], [], []⟩ "room".data
      "p1a: Garchomp".data (by decide) (by decide),
   damage_narration.2.2 ⟨[], [], [], []⟩ "p1a: Q".data rfl⟩

/-- Helper: a string cannot start with two prefixes of which neither is a
prefix of the other. -/
lemma startsWith_false_of_incomp {s : Str} (p q : Str)
    (hp : startsWith s p = true) (h1 : ¬ p <+: q) (h2 : ¬ q <+: p) :
    startsWith s q = false := by
  rw [startsWith, List.isPrefixOf_iff_prefix] at hp
  rw [startsWith, Bool.eq_false_iff]
  intro hq
  rw [List.isPrefixOf_iff_prefix] at hq
  rcases List.prefix_or_prefix_of_prefix hp hq with h | h
  · exact h1 h
  · exact h2 h

/-- Helper: a string cannot end with two suffixes of which neither is a
suffix of the other. -/
lemma endsWith_false_of_incomp {s : Str} (p q : Str)
    (hp : endsWith s p = true) (h1 : ¬ p <:+ q) (h2 : ¬ q <:+ p) :
    endsWith s q = false := by
  rw [endsWith, List.isSuffixOf_iff_suffix] at hp
  rw [endsWith, Bool.eq_false_iff]
  intro hq
  rw [List.isSuffixOf_iff_suffix] at hq
  rcases List.suffix_or_suffix_of_suffix hp hq with h | h
  · exact h1 h
  · exact h2 h

/-- An error text matches one of the rows of the ordered `elif` table that
precede the two "is disabled" rows and can overlap with them. -/
def disabledEarlierRowHit (s : Str) : Prop :=
  startsWith s errTooLate = true ∨
  startsWith s errTrappedUnavail = true ∨
  startsWith s errTrappedInvalid = true ∨
  startsWith s errSwitchActive = true ∨
  startsWith s errSwitchFainted = true ∨
  startsWith s errInvalidTarget = true ∨
  startsWith s errChooseTarget = true ∨
  (startsWith s errYourPrefix = true ∧
    containsSub s errMoveMatching = true) ∨
  startsWith s errIncomplete = true

instance (s : Str) : Decidable (disabledEarlierRowHit s) := by
  unfold disabledEarlierRowHit; infer_instance

/-- C3 counterexample: the error text
"[Invalid choice] Incomplete choice: Ice Beam is disabled" starts with
"[Invalid choice]" and ends with "is disabled", yet the handler does not
set the move-on-next-request flag — the earlier "Incomplete choice" row of
the ordered `elif` chain (line 618) wins and retries with the
forced-default chance. -/
theorem error_policy_counterexample :
    startsWith
      "[Invalid choice] Incomplete choice: Ice Beam is disabled".data
      errInvalid = true ∧
    endsWith "[Invalid choice] Incomplete choice: Ice Beam is disabled".data
      errIsDisabled = true ∧
    classifyError
      "[Invalid choice] Incomplete choice: Ice Beam is disabled".data ≠
      ErrAction.setMoveOnNextRequest ∧
    classifyError
      "[Invalid choice] Incomplete choice: Ice Beam is disabled".data =
      ErrAction.retryMaybeDefault := by
  refine ⟨by decide, by decide, by decide, by decide⟩

/-- C3 (amended): an error text starting with
"[Invalid choice] Incomplete choice: " always retries the decision request
with the forced-default chance; an error text starting with
"[Unavailable choice]" or "[Invalid choice]" and ending with "is disabled"
sets the move-on-next-request flag without retrying, provided it matches
none of the earlier rows of the ordered table (in particular it does not
itself start with the trapped-switch or "Incomplete choice" prefixes). -/
theorem error_policy_dispatch :
    (∀ s : Str, startsWith s errIncomplete = true →
      classifyError s = ErrAction.retryMaybeDefault) ∧
    (∀ s : Str,
      (startsWith s errUnavailable = true ∨
        startsWith s errInvalid = true) →
      endsWith s errIsDisabled = true →
      ¬ disabledEarlierRowHit s →
      classifyError s = ErrAction.setMoveOnNextRequest) := by
  constructor
  · intro s h
    have f1 : startsWith s errTooLate = false :=
      startsWith_false_of_incomp _ _ h (by decide) (by decide)
    have f2 : startsWith s errTrappedUnavail = false :=
      startsWith_false_of_incomp _ _ h (by decide) (by decide)
    have f3 : startsWith s errTrappedInvalid = false :=
      startsWith_false_of_incomp _ _ h (by decide) (by decide)
    have f4 : startsWith s errSwitchActive = false :=
      startsWith_false_of_incomp _ _ h (by decide) (by decide)
    have f5 : startsWith s errSwitchFainted = false :=
      startsWith_false_of_incomp _ _ h (by decide) (by decide)
    have f6 : startsWith s errInvalidTarget = false :=
      startsWith_false_of_incomp _ _ h (by decide) (by decide)
    have f7 : startsWith s errChooseTarget = false :=
      startsWith_false_of_incomp _ _ h (by decide) (by decide)
    have f8 : startsWith s errCantMove = false :=
      startsWith_false_of_incomp _ _ h (by decide) (by decide)
    have f9 : startsWith s errYourPrefix = false :=
      startsWith_false_of_incomp _ _ h (by decide) (by decide)
    simp [classifyError, f1, f2, f3, f4, f5, f6, f7, f8, f9, h]
  · intro s hor hds hno
    have f1 : startsWith s errTooLate = false := by
      cases hq : startsWith s errTooLate
      · rfl
      · exact absurd (Or.inl hq) hno
    have f2 : startsWith s errTrappedUnavail = false := by
      cases hq : startsWith s errTrappedUnavail
      · rfl
      · exact absurd (Or.inr (Or.inl hq)) hno
    have f3 : startsWith s errTrappedInvalid = false := by
      cases hq : startsWith s errTrappedInvalid
      · rfl
      · exact absurd (Or.inr (Or.inr (Or.inl hq))) hno
    have f4 : startsWith s errSwitchActive = false := by
      cases hq : startsWith s errSwitchActive
      · rfl
      · exact absurd (Or.inr (Or.inr (Or.inr (Or.inl hq)))) hno
    have f5 : startsWith s errSwitchFainted = false := by
      cases hq : startsWith s errSwitchFainted
      · rfl
      · exact absurd (Or.inr (Or.inr (Or.inr (Or.inr (Or.inl hq))))) hno
    have f6 : startsWith s errInvalidTarget = false := by
      cases hq : startsWith s errInvalidTarget
      · rfl
      · exact absurd
          (Or.inr (Or.inr (Or.inr (Or.inr (Or.inr (Or.inl hq)))))) hno
    have f7 : startsWith s errChooseTarget = false := by
      cases hq : startsWith s errChooseTarget
      · rfl
      · exact absurd
          (Or.inr (Or.inr (Or.inr (Or.inr (Or.inr (Or.inr (Or.inl hq)))))))
          hno
    have f8 : ¬(startsWith s errYourPrefix = true ∧
        containsSub s errMoveMatching = true) := fun hc =>
      hno (Or.inr (Or.inr (Or.inr (Or.inr (Or.inr (Or.inr
        (Or.inr (Or.inl hc))))))))
    have f9 : startsWith s errIncomplete = false := by
      cases hq : startsWith s errIncomplete
      · rfl
      · exact absurd
          (Or.inr (Or.inr (Or.inr (Or.inr (Or.inr (Or.inr (Or.inr
            (Or.inr hq)))))))) hno
    have fNT : endsWith s errNeedsTarget = false :=
      endsWith_false_of_incomp _ _ hds (by decide) (by decide)
    rcases hor with hu | hi
    · simp [classifyError, f1, f2, f3, f4, f5, f6, f7, f9, fNT, hu, hds,
        f8]
    · have fU : startsWith s errUnavailable = false :=
        startsWith_false_of_incomp _ _ hi (by decide) (by decide)
      simp [classifyError, f1, f2, f3, f4, f5, f6, f7, f9, fNT, fU, hi,
        hds, f8]

/-- Witness for C3 (amended): the two concrete error texts of the spec's
test catalogue. -/
theorem error_policy_dispatch_witness :
    classifyError "[Invalid choice] Incomplete choice: foo".data =
      ErrAction.retryMaybeDefault ∧
    classifyError "[Unavailable choice] Ice Beam is disabled".data =
      ErrAction.setMoveOnNextRequest :=
  ⟨error_policy_dispatch.1 "[Invalid choice] Incomplete choice: foo".data
      (by decide),
   error_policy_dispatch.2 "[Unavailable choice] Ice Beam is disabled".data
      (Or.inl (by decide)) (by decide) (by decide)⟩

/-- Number of `_battle_count_queue` slots a task currently holds: one
after its `put` until its race-loser `get`, kept forever when the task
finished through its own registration. -/
def slotWeight : CreatePC → Nat
  | .atCheck => 0
  | .atPut => 0
  | .atRecheck => 1
  | .atRegister => 1
  | .done _ v => if v then 1 else 0

/-- The task did not finish through its own registration. -/
def noDoneTrue (pc : CreatePC) : Prop := ∀ r, pc ≠ .done r true

/-- Invariant of the two-task creation race, maintained along every
interleaving in which the two tasks are never simultaneously between their
registry re-check and their registration. -/
def RaceInv (s : RaceState) : Prop :=
  s.admitted = slotWeight s.pc0 + slotWeight s.pc1 ∧
  ((s.registrations = 0 ∧ s.reg = none ∧ noDoneTrue s.pc0 ∧
      noDoneTrue s.pc1) ∨
   (s.registrations = 1 ∧
     ((s.reg = some false ∧ s.pc0 = .done false true ∧ noDoneTrue s.pc1) ∨
      (s.reg = some true ∧ s.pc1 = .done true true ∧ noDoneTrue s.pc0)))) ∧
  (s.pc0 = .atRegister → s.reg = none) ∧
  (s.pc1 = .atRegister → s.reg = none) ∧
  (∀ r, s.pc0 = .done r false → s.reg = some r) ∧
  (∀ r, s.pc1 = .done r false → s.reg = some r)

/-- Helper for C2: one step of either task preserves the race invariant,
given that the pre-state does not have both tasks inside the
lock-acquire/registration window. -/
lemma raceStep_inv {cap : Nat} {s s' : RaceState} {i : Bool}
    (hInv : RaceInv s) (hnd : ¬ bothAtRegister s)
    (h : raceStep cap s i = some s') : RaceInv s' := by
  obtain ⟨h1, h2, h3, h4, h5, h6⟩ := hInv
  cases i
  · simp only [raceStep, RaceState.pc, RaceState.setPc, Bool.false_eq_true,
      if_false] at h
    cases hpc : s.pc0 with
    | atCheck =>
      simp only [hpc] at h
      cases hr : s.reg with
      | some b =>
        rw [hr] at h2 h3 h4 h5 h6
        simp only [hr] at h
        cases h
        dsimp only [RaceInv]
        rcases h2 with ⟨-, hrn, -, -⟩ | ⟨hr1, hc⟩
        · cases hrn
        · refine ⟨by simp [slotWeight, hpc] at h1 ⊢; omega, ?_, ?_, h4,
            ?_, h6⟩
          · refine Or.inr ⟨hr1, ?_⟩
            rcases hc with ⟨-, hp0, -⟩ | ⟨hra, hp1, -⟩
            · rw [hpc] at hp0; cases hp0
            · exact Or.inr ⟨hra, hp1, fun r => by simp [noDoneTrue]⟩
          · intro hcon; cases hcon
          · intro r hdone
            simp only [CreatePC.done.injEq] at hdone
            rw [hdone.1]
      | none =>
        rw [hr] at h2 h3 h4 h5 h6
        simp only [hr] at h
        cases h
        dsimp only [RaceInv]
        refine ⟨by simpa [slotWeight, hpc] using h1, ?_, ?_, h4, ?_, h6⟩
        · rcases h2 with ⟨hr0, -, -, hn1⟩ | ⟨-, hc⟩
          · exact Or.inl ⟨hr0, rfl, fun r => by simp [noDoneTrue], hn1⟩
          · rcases hc with ⟨hra, -, -⟩ | ⟨hra, -, -⟩ <;> cases hra
        · intro hcon; cases hcon
        · intro r hdone; cases hdone
    | atPut =>
      simp only [hpc] at h
      by_cases hen : cap = 0 ∨ s.admitted < cap
      · rw [if_pos hen] at h
        cases h
        dsimp only [RaceInv]
        refine ⟨by simp [slotWeight, hpc] at h1 ⊢; omega, ?_, ?_, h4, ?_,
          h6⟩
        · rcases h2 with ⟨hr0, hrn, -, hn1⟩ | ⟨hr1, hc⟩
          · exact Or.inl ⟨hr0, hrn, fun r => by simp [noDoneTrue], hn1⟩
          · refine Or.inr ⟨hr1, ?_⟩
            rcases hc with ⟨-, hp0, -⟩ | ⟨hra, hp1, -⟩
            · rw [hpc] at hp0; cases hp0
            · exact Or.inr ⟨hra, hp1, fun r => by simp [noDoneTrue]⟩
        · intro hcon; cases hcon
        · intro r hdone; cases hdone
      · rw [if_neg hen] at h
        cases h
    | atRecheck =>
      simp only [hpc] at h
      cases hr : s.reg with
      | some b =>
        rw [hr] at h2 h3 h4 h5 h6
        simp only [hr] at h
        by_cases hadm : 0 < s.admitted
        · rw [if_pos hadm] at h
          cases h
          dsimp only [RaceInv]
          rcases h2 with ⟨-, hrn, -, -⟩ | ⟨hr1, hc⟩
          · cases hrn
          · refine ⟨by simp [slotWeight, hpc] at h1 ⊢; omega, ?_, ?_, h4,
              ?_, h6⟩
            · refine Or.inr ⟨hr1, ?_⟩
              rcases hc with ⟨-, hp0, -⟩ | ⟨hra, hp1, -⟩
              · rw [hpc] at hp0; cases hp0
              · exact Or.inr ⟨hra, hp1, fun r => by simp [noDoneTrue]⟩
            · intro hcon; cases hcon
            · intro r hdone
              simp only [CreatePC.done.injEq] at hdone
              rw [hdone.1]
        · rw [if_neg hadm] at h
          cases h
      | none =>
        rw [hr] at h2 h3 h4 h5 h6
        simp only [hr] at h
        cases h
        dsimp only [RaceInv]
        refine ⟨by simpa [slotWeight, hpc] using h1, ?_, ?_, h4, ?_, h6⟩
        · rcases h2 with ⟨hr0, -, -, hn1⟩ | ⟨-, hc⟩
          · exact Or.inl ⟨hr0, rfl, fun r => by simp [noDoneTrue], hn1⟩
          · rcases hc with ⟨hra, -, -⟩ | ⟨hra, -, -⟩ <;> cases hra
        · intro _; rfl
        · intro r hdone; cases hdone
    | atRegister =>
      simp only [hpc] at h
      cases h
      dsimp only [RaceInv]
      have hrn : s.reg = none := h3 hpc
      have hp1ne : s.pc1 ≠ CreatePC.atRegister := fun hp1 =>
        hnd ⟨hpc, hp1⟩
      rw [hrn] at h2 h4 h5 h6
      rcases h2 with ⟨hr0, -, -, hn1⟩ | ⟨-, hc⟩
      · refine ⟨by simp [slotWeight, hpc] at h1 ⊢; omega, ?_, ?_, ?_, ?_,
          ?_⟩
        · exact Or.inr ⟨by omega, Or.inl ⟨rfl, rfl, hn1⟩⟩
        · intro hcon; cases hcon
        · intro hp1; exact absurd hp1 hp1ne
        · intro r hdone; cases hdone
        · intro r hdone
          cases h6 r hdone
      · rcases hc with ⟨hra, -, -⟩ | ⟨hra, -, -⟩ <;> cases hra
    | done b v =>
      simp only [hpc] at h
      cases h
  · simp only [raceStep, RaceState.pc, RaceState.setPc, if_true] at h
    cases hpc : s.pc1 with
    | atCheck =>
      simp only [hpc] at h
      cases hr : s.reg with
      | some b =>
        rw [hr] at h2 h3 h4 h5 h6
        simp only [hr] at h
        cases h
        dsimp only [RaceInv]
        rcases h2 with ⟨-, hrn, -, -⟩ | ⟨hr1, hc⟩
        · cases hrn
        · refine ⟨by simp [slotWeight, hpc] at h1 ⊢; omega, ?_, h3, ?_,
            h5, ?_⟩
          · refine Or.inr ⟨hr1, ?_⟩
            rcases hc with ⟨hra, hp0, -⟩ | ⟨-, hp1, -⟩
            · exact Or.inl ⟨hra, hp0, fun r => by simp [noDoneTrue]⟩
            · rw [hpc] at hp1; cases hp1
          · intro hcon; cases hcon
          · intro r hdone
            simp only [CreatePC.done.injEq] at hdone
            rw [hdone.1]
      | none =>
        rw [hr] at h2 h3 h4 h5 h6
        simp only [hr] at h
        cases h
        dsimp only [RaceInv]
        refine ⟨by simpa [slotWeight, hpc] using h1, ?_, h3, ?_, h5, ?_⟩
        · rcases h2 with ⟨hr0, -, hn0, -⟩ | ⟨-, hc⟩
          · exact Or.inl ⟨hr0, rfl, hn0, fun r => by simp [noDoneTrue]⟩
          · rcases hc with ⟨hra, -, -⟩ | ⟨hra, -, -⟩ <;> cases hra
        · intro hcon; cases hcon
        · intro r hdone; cases hdone
    | atPut =>
      simp only [hpc] at h
      by_cases hen : cap = 0 ∨ s.admitted < cap
      · rw [if_pos hen] at h
        cases h
        dsimp only [RaceInv]
        refine ⟨by simp [slotWeight, hpc] at h1 ⊢; omega, ?_, h3, ?_, h5,
          ?_⟩
        · rcases h2 with ⟨hr0, hrn, hn0, -⟩ | ⟨hr1, hc⟩
          · exact Or.inl ⟨hr0, hrn, hn0, fun r => by simp [noDoneTrue]⟩
          · refine Or.inr ⟨hr1, ?_⟩
            rcases hc with ⟨hra, hp0, -⟩ | ⟨-, hp1, -⟩
            · exact Or.inl ⟨hra, hp0, fun r => by simp [noDoneTrue]⟩
            · rw [hpc] at hp1; cases hp1
        · intro hcon; cases hcon
        · intro r hdone; cases hdone
      · rw [if_neg hen] at h
        cases h
    | atRecheck =>
      simp only [hpc] at h
      cases hr : s.reg with
      | some b =>
        rw [hr] at h2 h3 h4 h5 h6
        simp only [hr] at h
        by_cases hadm : 0 < s.admitted
        · rw [if_pos hadm] at h
          cases h
          dsimp only [RaceInv]
          rcases h2 with ⟨-, hrn, -, -⟩ | ⟨hr1, hc⟩
          · cases hrn
          · refine ⟨by simp [slotWeight, hpc] at h1 ⊢; omega, ?_, h3, ?_,
              h5, ?_⟩
            · refine Or.inr ⟨hr1, ?_⟩
              rcases hc with ⟨hra, hp0, -⟩ | ⟨-, hp1, -⟩
              · exact Or.inl ⟨hra, hp0, fun r => by simp [noDoneTrue]⟩
              · rw [hpc] at hp1; cases hp1
            · intro hcon; cases hcon
            · intro r hdone
              simp only [CreatePC.done.injEq] at hdone
              rw [hdone.1]
        · rw [if_neg hadm] at h
          cases h
      | none =>
        rw [hr] at h2 h3 h4 h5 h6
        simp only [hr] at h
        cases h
        dsimp only [RaceInv]
        refine ⟨by simpa [slotWeight, hpc] using h1, ?_, h3, ?_, h5, ?_⟩
        · rcases h2 with ⟨hr0, -, hn0, -⟩ | ⟨-, hc⟩
          · exact Or.inl ⟨hr0, rfl, hn0, fun r => by simp [noDoneTrue]⟩
          · rcases hc with ⟨hra, -, -⟩ | ⟨hra, -, -⟩ <;> cases hra
        · intro _; rfl
        · intro r hdone; cases hdone
    | atRegister =>
      simp only [hpc] at h
      cases h
      dsimp only [RaceInv]
      have hrn : s.reg = none := h4 hpc
      have hp0ne : s.pc0 ≠ CreatePC.atRegister := fun hp0 =>
        hnd ⟨hp0, hpc⟩
      rw [hrn] at h2 h3 h5 h6
      rcases h2 with ⟨hr0, -, hn0, -⟩ | ⟨-, hc⟩
      · refine ⟨by simp [slotWeight, hpc] at h1 ⊢; omega, ?_, ?_, ?_, ?_,
          ?_⟩
        · exact Or.inr ⟨by omega, Or.inr ⟨rfl, rfl, hn0⟩⟩
        · intro hp0; exact absurd hp0 hp0ne
        · intro hcon; cases hcon
        · intro r hdone
          cases h5 r hdone
        · intro r hdone; cases hdone
      · rcases hc with ⟨hra, -, -⟩ | ⟨hra, -, -⟩ <;> cases hra
    | done b v =>
      simp only [hpc] at h
      cases h

/-- Helper for C2: the race invariant holds at the end of every completed
schedule all of whose states keep the two tasks out of the simultaneous
registration window. -/
lemma raceSteps_inv (cap : Nat) :
    ∀ (sched : List Bool) (s : RaceState) (tr : List RaceState),
      RaceInv s → ¬ bothAtRegister s →
      raceSteps cap sched s = some tr →
      (∀ st ∈ tr, ¬ bothAtRegister st) →
      RaceInv (tr.getLastD s) := by
  intro sched
  induction sched with
  | nil =>
    intro s tr hInv _ h _
    cases h
    exact hInv
  | cons i is ih =>
    intro s tr hInv hnd h hall
    unfold raceSteps at h
    cases hstep : raceStep cap s i with
    | none =>
      simp only [hstep] at h
      cases h
    | some s1 =>
      simp only [hstep] at h
      cases hrest : raceSteps cap is s1 with
      | none =>
        simp only [hrest] at h
        cases h
      | some l =>
        simp only [hrest] at h
        cases h
        rw [List.getLastD_cons]
        have hnd1 : ¬ bothAtRegister s1 :=
          hall s1 (List.mem_cons_self s1 l)
        exact ih s1 l (raceStep_inv hInv hnd hstep) hnd1 hrest
          (fun st hst => hall st (List.mem_cons_of_mem s1 hst))

/-- C2 counterexample: an interleaving in which both `_create_battle`
tasks pass the registry re-check of line 299 before either registers.  Both
then register (line 305, the second overwriting the first), the two callers
return different battle objects (`pc0` returns object `false`, `pc1`
object `true`), two registrations occur instead of one, and both tentative
admissions are kept (`admitted = 2`) with no release.  The schedule runs
task 0 through check/put/re-check, then task 1 through
check/put/re-check/register, then task 0's register. -/
theorem create_battle_race_counterexample :
    raceRun 0 [false, false, false, true, true, true, true, false]
        raceInit =
      some ⟨some false, 2, 2, CreatePC.done false true,
        CreatePC.done true true⟩ ∧
    (RaceState.registrations ⟨some false, 2, 2, CreatePC.done false true,
        CreatePC.done true true⟩ ≠ 1) ∧
    CreatePC.done false true ≠ CreatePC.done true true := by
  refine ⟨by decide, by decide, by decide⟩

/-- C2 (amended): for every interleaving of two same-tag `_create_battle`
calls in which the two tasks are never simultaneously between their
registry re-check (line 299) and their registration (line 305), if both
calls complete then both callers receive the same battle object, exactly
one registration is added to the registry, and the race loser has released
the admission it tentatively reserved (exactly one queue slot stays
held). -/
theorem create_battle_idempotent (cap : Nat) (sched : List Bool)
    (tr : List RaceState) (r0 v0 r1 v1 : Bool)
    (hrun : raceSteps cap sched raceInit = some tr)
    (hsafe : ∀ st ∈ tr, ¬ bothAtRegister st)
    (h0 : (tr.getLastD raceInit).pc0 = CreatePC.done r0 v0)
    (h1 : (tr.getLastD raceInit).pc1 = CreatePC.done r1 v1) :
    r0 = r1 ∧ (tr.getLastD raceInit).reg = some r0 ∧
      (tr.getLastD raceInit).registrations = 1 ∧
      (tr.getLastD raceInit).admitted = 1 := by
  have hInv0 : RaceInv raceInit := by
    refine ⟨rfl, Or.inl ⟨rfl, rfl, fun r hcon => ?_, fun r hcon => ?_⟩,
      fun hcon => ?_, fun hcon => ?_, fun r hcon => ?_,
      fun r hcon => ?_⟩ <;> simp [raceInit] at hcon
  have hnd0 : ¬ bothAtRegister raceInit := by
    rintro ⟨ha, -⟩
    cases ha
  obtain ⟨hA, hB, -, -, h5, h6⟩ :=
    raceSteps_inv cap sched raceInit tr hInv0 hnd0 hrun hsafe
  rcases hB with ⟨-, hrn, hn0, -⟩ | ⟨hreg1, hc⟩
  · cases v0 with
    | true => exact absurd h0 (hn0 r0)
    | false =>
      have := h5 r0 h0
      rw [hrn] at this
      cases this
  · rcases hc with ⟨hra, hp0, hn1⟩ | ⟨hra, hp1, hn0⟩
    · rw [h0] at hp0
      obtain ⟨hr0f, hv0t⟩ := CreatePC.done.inj hp0
      cases v1 with
      | true => exact absurd h1 (hn1 r1)
      | false =>
        have hregr1 := h6 r1 h1
        rw [hra] at hregr1
        have hr1f : r1 = false := (Option.some.inj hregr1).symm
        refine ⟨by rw [hr0f, hr1f], ?_, hreg1, ?_⟩
        · rw [hra, hr0f]
        · rw [hA, h0, h1, hr0f, hr1f, hv0t]
          simp [slotWeight]
    · rw [h1] at hp1
      obtain ⟨hr1t, hv1t⟩ := CreatePC.done.inj hp1
      cases v0 with
      | true => exact absurd h0 (hn0 r0)
      | false =>
        have hregr0 := h5 r0 h0
        rw [hra] at hregr0
        have hr0t : r0 = true := (Option.some.inj hregr0).symm
        refine ⟨by rw [hr0t, hr1t], ?_, hreg1, ?_⟩
        · rw [hra, hr0t]
        · rw [hA, h0, h1, hr0t, hr1t, hv1t]
          simp [slotWeight]

/-- Witness for C2 (amended): a safe schedule — task 0 runs
check/put/re-check/register to completion, then task 1's first check finds
the registered battle and returns it — ends with both callers holding
object `false`, one registration and one admitted slot. -/
theorem create_battle_idempotent_witness :
    false = false ∧
      (List.getLastD
        [⟨none, 0, 0, CreatePC.atPut, CreatePC.atCheck⟩,
          ⟨none, 1, 0, CreatePC.atRecheck, CreatePC.atCheck⟩,
          ⟨none, 1, 0, CreatePC.atRegister, CreatePC.atCheck⟩,
          ⟨some false, 1, 1, CreatePC.done false true, CreatePC.atCheck⟩,
          ⟨some false, 1, 1, CreatePC.done false true,
            CreatePC.done false false⟩] raceInit).reg = some false ∧
      (List.getLastD
        [⟨none, 0, 0, CreatePC.atPut, CreatePC.atCheck⟩,
          ⟨none, 1, 0, CreatePC.atRecheck, CreatePC.atCheck⟩,
          ⟨none, 1, 0, CreatePC.atRegister, CreatePC.atCheck⟩,
          ⟨some false, 1, 1, CreatePC.done false true, CreatePC.atCheck⟩,
          ⟨some false, 1, 1, CreatePC.done false true,
            CreatePC.done false false⟩] raceInit).registrations = 1 ∧
      (List.getLastD
        [⟨none, 0, 0, CreatePC.atPut, CreatePC.atCheck⟩,
          ⟨none, 1, 0, CreatePC.atRecheck, CreatePC.atCheck⟩,
          ⟨none, 1, 0, CreatePC.atRegister, CreatePC.atCheck⟩,
          ⟨some false, 1, 1, CreatePC.done false true, CreatePC.atCheck⟩,
          ⟨some false, 1, 1, CreatePC.done false true,
            CreatePC.done false false⟩] raceInit).admitted = 1 :=
  create_battle_idempotent 0 [false, false, false, false, true]
    [⟨none, 0, 0, CreatePC.atPut, CreatePC.atCheck⟩,
      ⟨none, 1, 0, CreatePC.atRecheck, CreatePC.atCheck⟩,
      ⟨none, 1, 0, CreatePC.atRegister, CreatePC.atCheck⟩,
      ⟨some false, 1, 1, CreatePC.done false true, CreatePC.atCheck⟩,
      ⟨some false, 1, 1, CreatePC.done false true,
        CreatePC.done false false⟩] false true false false
    (by decide) (by decide) (by decide) (by decide)

end PokeEnv
